import Mathlib

/-!
Shallow embedding of the AttrDictionary library (attrdictionary/mixins.py,
attrdictionary/dictionary.py, attrdictionary/mapping.py) together with
proofs about the attribute-access, boxing, merge, addition, serialization
and aliasing behaviour of the containers.

Python dictionaries are embedded as association lists over an explicit
key type; Python values are an inductive type covering the cases the
library distinguishes (strings, bytes, scalars, mappings and non-string
sequences).  Stateful attribute operations are embedded as functions from
an explicit instance state to a new state or an error.
-/

/-- Kind of a concrete Python sequence constructor (list or tuple); used as
the value of the per-instance sequence-type configuration. -/
inductive SeqKind where
  | list : SeqKind
  | tuple : SeqKind
deriving DecidableEq, Repr

/-- A Python dictionary key: the library stores keys of any hashable type;
strings and integers are the cases exercised by the code and its tests. -/
inductive PyKey where
  | str : String → PyKey
  | int : Int → PyKey
deriving DecidableEq, Repr

/-- A Python value as the library observes it: `isinstance` checks in
`Attr._build` distinguish strings, bytes, mappings, non-string sequences
and everything else (scalars). -/
inductive PyVal where
  | str : String → PyVal
  | bytes : List UInt8 → PyVal
  | int : Int → PyVal
  | bool : Bool → PyVal
  | none : PyVal
  | map : List (PyKey × PyVal) → PyVal
  | seq : SeqKind → List PyVal → PyVal

/-- The per-instance configuration returned by `_configuration()`: the
`_sequence_type` attribute, where `Option.none` is Python `None`, the
no-conversion sentinel (tested by truthiness in `_build`). -/
abbrev PyConfig := Option SeqKind

/-- Errors raised by the embedded operations, carrying the data the
Python exception messages interpolate. -/
inductive PyError where
  | attributeError (cls : String) (key : PyKey)
  | keyError (key : PyKey)
  | typeErrorCreate (cls : String) (key : String) (v : PyVal)
  | typeErrorDelete (cls : String)
  | typeErrorItemAssignment (cls : String)

/-- Dictionary lookup `d[k]` on the association-list embedding: first
binding of the key, if any. -/
def lookupKey : List (PyKey × PyVal) → PyKey → Option PyVal
  | [], _ => Option.none
  | (k', v) :: rest, k => if k' = k then some v else lookupKey rest k

/-- Dictionary store `d[k] = v`: replace the binding in place if the key
is present, append it otherwise (CPython dict update semantics). -/
def setEntry : List (PyKey × PyVal) → PyKey → PyVal → List (PyKey × PyVal)
  | [], k, v => [(k, v)]
  | (k', v') :: rest, k, v =>
    if k' = k then (k, v) :: rest else (k', v') :: setEntry rest k v

/-- Dictionary delete `del d[k]`: drop the binding of the key. -/
def removeKey : List (PyKey × PyVal) → PyKey → List (PyKey × PyVal)
  | [], _ => []
  | (k', v) :: rest, k =>
    if k' = k then removeKey rest k else (k', v) :: removeKey rest k

/-- Instance attribute lookup in the object's `__dict__`. -/
def lookupStr : List (String × PyVal) → String → Option PyVal
  | [], _ => Option.none
  | (k', v) :: rest, k => if k' = k then some v else lookupStr rest k

/-- Instance attribute store into the object's `__dict__`
(`object.__setattr__`). -/
def setStrEntry : List (String × PyVal) → String → PyVal → List (String × PyVal)
  | [], k, v => [(k, v)]
  | (k', v') :: rest, k, v =>
    if k' = k then (k, v) :: rest else (k', v') :: setStrEntry rest k v

/-- Instance attribute delete from the object's `__dict__`
(`object.__delattr__`). -/
def removeStrKey : List (String × PyVal) → String → List (String × PyVal)
  | [], _ => []
  | (k', v) :: rest, k =>
    if k' = k then removeStrKey rest k else (k', v) :: removeStrKey rest k

/-- Python `dict.update(m)`: store each binding of `m` in order. -/
def updateAll (base : List (PyKey × PyVal)) : List (PyKey × PyVal) → List (PyKey × PyVal)
  | [] => base
  | (k, v) :: rest => updateAll (setEntry base k v) rest

/-- Python mapping equality (order-insensitive): the two association
lists agree on the lookup of every key. -/
def MappingEq (l r : List (PyKey × PyVal)) : Prop :=
  ∀ k, lookupKey l k = lookupKey r k

/-- ASCII letter, the character class `[A-Za-z]` of the pattern in
`Attr._valid_name`. -/
def isAsciiLetter (c : Char) : Bool :=
  (decide ('A' ≤ c) && decide (c ≤ 'Z')) || (decide ('a' ≤ c) && decide (c ≤ 'z'))

/-- Character class `[A-Za-z0-9_]` of the pattern in `Attr._valid_name`. -/
def isWordChar (c : Char) : Bool :=
  isAsciiLetter c || (decide ('0' ≤ c) && decide (c ≤ '9')) || decide (c = '_')

/-- Tail of a successful `re.match` of `[A-Za-z0-9_]*$` without
`re.MULTILINE`: every character is in the class, except that Python `$`
also matches just before a single newline at the very end of the
string. -/
def pyTailMatch : List Char → Bool
  | [] => true
  | c :: rest => (isWordChar c && pyTailMatch rest) || (decide (c = '\n') && rest.isEmpty)

/-- Python semantics of
`re.match("^[A-Za-z][A-Za-z0-9_]*$", s) is not None`:
a leading ASCII letter followed by word characters, optionally with one
trailing newline (which `$` tolerates). -/
def pyPatternMatch : List Char → Bool
  | [] => false
  | c :: rest => isAsciiLetter c && pyTailMatch rest

/-- Modelled from the spec: the anchored pattern
`^[A-Za-z][A-Za-z0-9_]*$` read as a plain regular expression over the
whole string (a leading ASCII letter followed only by word characters),
the reading used by the specification text. -/
def specPatternMatch : List Char → Bool
  | [] => false
  | c :: rest => isAsciiLetter c && rest.all isWordChar

/-- Embedding of `Attr._valid_name`: the key is a string, Python
`re.match` of the anchored pattern succeeds, and `hasattr(cls, key)` is
false; `classMembers` enumerates the attribute names visible on the
class (for `Attr` itself: get, items, keys, values, mro, register, and
the non-matching private and dunder names). -/
def valid_name (classMembers : List String) : PyKey → Bool
  | PyKey.str s => pyPatternMatch s.toList && !(classMembers.contains s)
  | _ => false

/-- The regex-matching attribute names visible on the `Attr` class
(per the docstring of `Attr._valid_name`). -/
def attrMembers : List String :=
  ["get", "items", "keys", "values", "mro", "register"]

/-- The regex-matching attribute names visible on `MutableAttr`
implementations such as `AttrMap` (the `Attr` names plus the
`MutableMapping` ones). -/
def mutableAttrMembers : List String :=
  attrMembers ++ ["pop", "popitem", "clear", "update", "setdefault"]

/-- Modelled from the spec: the function `merge` of
`attrdictionary/merge.py`, which `attrdictionary.mixins` imports but
which is absent from the source tree.  Per the spec contract: the result
binds every key of either side; a key present on one side only keeps
that side's value, a key bound to mappings on both sides is merged
recursively, and any other shared key takes the right side's value.
The embedding walks the left list and consumes matching right bindings,
appending the remaining right bindings at the end. -/
def merge : List (PyKey × PyVal) → List (PyKey × PyVal) → List (PyKey × PyVal)
  | [], r => r
  | (k, PyVal.map lm) :: rest, r =>
    (k,
      match lookupKey r k with
      | some (PyVal.map rm) => PyVal.map (merge lm rm)
      | some w => w
      | Option.none => PyVal.map lm) :: merge rest (removeKey r k)
  | (k, v) :: rest, r =>
    (k,
      match lookupKey r k with
      | some w => w
      | Option.none => v) :: merge rest (removeKey r k)
termination_by l _ => sizeOf l

/-- The value `merge` associates to a key, as a function of the two
sides' lookups: both-mappings merge recursively, any other shared key is
right-biased, a one-sided key keeps its value. -/
def mergeLookupSpec : Option PyVal → Option PyVal → Option PyVal
  | some (PyVal.map lm), some (PyVal.map rm) => some (PyVal.map (merge lm rm))
  | some _, some w => some w
  | some v, Option.none => some v
  | Option.none, o => o

/-- State of a read-capable `Attr` container: the mapping contents and
the `_sequence_type` configuration (`_configuration()` returns the
latter). -/
structure AttrInst where
  entries : List (PyKey × PyVal)
  sequence_type : PyConfig

/-- Result of `Attr._build`: either the raw value unchanged, a new
same-class container built by the standardized constructor from a plain
mapping and a configuration, or a rebuilt sequence of boxed elements. -/
inductive Boxed where
  | raw : PyVal → Boxed
  | container : List (PyKey × PyVal) → PyConfig → Boxed
  | builtSeq : SeqKind → List Boxed → Boxed

mutual

/-- Embedding of `Attr._build`: a mapping becomes
`self._constructor(obj, self._configuration())`; a non-string/bytes
sequence is rebuilt as the configured sequence type over the boxed
elements when `_sequence_type` is truthy; everything else is returned
unchanged. -/
def build (cfg : PyConfig) : PyVal → Boxed
  | PyVal.map entries => Boxed.container entries cfg
  | PyVal.seq sk elems =>
    match cfg with
    | some st => Boxed.builtSeq st (buildList cfg elems)
    | Option.none => Boxed.raw (PyVal.seq sk elems)
  | v => Boxed.raw v

/-- Elementwise `Attr._build` over the elements of a sequence value. -/
def buildList (cfg : PyConfig) : List PyVal → List Boxed
  | [] => []
  | e :: rest => build cfg e :: buildList cfg rest

end

/-- Embedding of `Attr.__getattr__`: raises `AttributeError` naming the
class and key when the key is not in the mapping or `_valid_name`
rejects it, and returns `self._build(self[key])` otherwise. -/
def attr_getattr (members : List String) (cls : String) (inst : AttrInst)
    (key : String) : Except PyError Boxed :=
  match lookupKey inst.entries (PyKey.str key) with
  | some v =>
    if valid_name members (PyKey.str key) then Except.ok (build inst.sequence_type v)
    else Except.error (PyError.attributeError cls (PyKey.str key))
  | Option.none => Except.error (PyError.attributeError cls (PyKey.str key))

/-- Embedding of `Attr.__call__`: raises `AttributeError` naming the
class and key when the key is not in the mapping, and returns
`self._build(self[key])` otherwise. -/
def attr_call (cls : String) (inst : AttrInst) (key : PyKey) : Except PyError Boxed :=
  match lookupKey inst.entries key with
  | some v => Except.ok (build inst.sequence_type v)
  | Option.none => Except.error (PyError.attributeError cls key)

/-- Mapping test used by `__add__`/`__radd__`:
`isinstance(other, Mapping)`. -/
def PyVal.isMap : PyVal → Bool
  | PyVal.map _ => true
  | _ => false

/-- Embedding of `Attr.__add__`: `NotImplemented` (here `Option.none`)
for a non-mapping operand, otherwise
`self._constructor(merge(self, other), self._configuration())`. -/
def attr_add (inst : AttrInst) : PyVal → Option AttrInst
  | PyVal.map o => some ⟨merge inst.entries o, inst.sequence_type⟩
  | _ => Option.none

/-- Embedding of `Attr.__radd__`: `NotImplemented` for a non-mapping
operand, otherwise
`self._constructor(merge(other, self), self._configuration())`. -/
def attr_radd (inst : AttrInst) : PyVal → Option AttrInst
  | PyVal.map o => some ⟨merge o inst.entries, inst.sequence_type⟩
  | _ => Option.none

/-- State of a `MutableAttr` instance: the mapping contents plus the
object-level attribute dictionary (`__dict__`), which is where
`_setattr` stores internal bookkeeping such as
`_allow_invalid_attributes`. -/
structure MutInst where
  entries : List (PyKey × PyVal)
  objAttrs : List (String × PyVal)

/-- Python truthiness of an embedded value, used by the
`getattr(self, "_allow_invalid_attributes", True)` test. -/
def truthy : PyVal → Bool
  | PyVal.bool b => b
  | PyVal.none => false
  | PyVal.int n => decide (n ≠ 0)
  | PyVal.str s => decide (s ≠ "")
  | PyVal.bytes b => decide (b ≠ [])
  | PyVal.map l => !l.isEmpty
  | PyVal.seq _ l => !l.isEmpty

/-- Embedding of `getattr(self, "_allow_invalid_attributes", True)`
with truthiness applied: the default when the instance attribute was
never set is `True`. -/
def allow_invalid (inst : MutInst) : Bool :=
  match lookupStr inst.objAttrs ("_allow_invalid_attributes") with
  | some v => truthy v
  | Option.none => true

/-- Embedding of `MutableMapping.__setitem__` as implemented by the
concrete variants: a plain keyed store into the mapping. -/
def mut_setitem (inst : MutInst) (k : PyKey) (v : PyVal) : MutInst :=
  { inst with entries := setEntry inst.entries k v }

/-- Embedding of `__delitem__` (`del self._mapping[key]`): removes the
binding, raising `KeyError` when the key is absent. -/
def mut_delitem (inst : MutInst) (k : PyKey) : Except PyError MutInst :=
  match lookupKey inst.entries k with
  | some _ => Except.ok { inst with entries := removeKey inst.entries k }
  | Option.none => Except.error (PyError.keyError k)

/-- Embedding of `MutableAttr._setattr` (`super().__setattr__`): an
ordinary object-level attribute assignment into `__dict__`, never
touching the mapping. -/
def raw_setattr (inst : MutInst) (key : String) (v : PyVal) : MutInst :=
  { inst with objAttrs := setStrEntry inst.objAttrs key v }

/-- Embedding of `object.__delattr__`: removes an object-level
attribute, raising `AttributeError` when it is absent. -/
def raw_delattr (cls : String) (inst : MutInst) (key : String) : Except PyError MutInst :=
  match lookupStr inst.objAttrs key with
  | some _ => Except.ok { inst with objAttrs := removeStrKey inst.objAttrs key }
  | Option.none => Except.error (PyError.attributeError cls (PyKey.str key))

/-- Embedding of `MutableAttr.__setattr__`: a `_valid_name` key is
stored into the mapping (`self[key] = value`); otherwise, when
`_allow_invalid_attributes` (default true) is truthy the assignment is
an ordinary object-level one, else a `TypeError` naming the class, key
and value is raised. -/
def mutable_setattr (members : List String) (cls : String) (inst : MutInst)
    (key : String) (v : PyVal) : Except PyError MutInst :=
  if valid_name members (PyKey.str key) then Except.ok (mut_setitem inst (PyKey.str key) v)
  else if allow_invalid inst then Except.ok (raw_setattr inst key v)
  else Except.error (PyError.typeErrorCreate cls key v)

/-- Embedding of `MutableAttr.__delattr__`: a `_valid_name` key is
deleted from the mapping (`del self[key]`); otherwise, when
`_allow_invalid_attributes` (default true) is truthy the deletion is an
ordinary object-level one, else a `TypeError` naming the class is
raised. -/
def mutable_delattr (members : List String) (cls : String) (inst : MutInst)
    (key : String) : Except PyError MutInst :=
  if valid_name members (PyKey.str key) then mut_delitem inst (PyKey.str key)
  else if allow_invalid inst then raw_delattr cls inst key
  else Except.error (PyError.typeErrorDelete cls)

/-- State of a read-only `Attr` implementation (the `Attr` mixin over a
read-only mapping, as in the tests' `AttrImpl`): mapping contents plus
the object-level attribute dictionary. -/
structure ROInst where
  entries : List (PyKey × PyVal)
  objAttrs : List (String × PyVal)

/-- Attribute assignment on a read-only `Attr` container: the class
defines no `__setattr__` override, so `object.__setattr__` runs and
stores an ordinary object-level attribute, never touching the mapping
and never raising. -/
def ro_setattr (inst : ROInst) (key : String) (v : PyVal) : Except PyError ROInst :=
  Except.ok { inst with objAttrs := setStrEntry inst.objAttrs key v }

/-- Keyed assignment on a read-only `Attr` container: `Mapping` defines
no `__setitem__`, so `inst[key] = value` raises
`TypeError: object does not support item assignment`. -/
def ro_setitem (cls : String) (_inst : ROInst) (_k : PyKey) (_v : PyVal) :
    Except PyError ROInst :=
  Except.error (PyError.typeErrorItemAssignment cls)

/-- Serializable state of an `AttrDict`: it is itself the dict, plus the
`_sequence_type` and `_allow_invalid_attributes` object attributes
(`AttrDict.__init__` sets `tuple` and `False`). -/
structure AttrDictState where
  entries : List (PyKey × PyVal)
  sequence_type : PyConfig
  allow_invalid : Bool

/-- Embedding of `AttrDict.__getstate__`: the three-tuple of a snapshot
of the entries (`self.copy()`), the sequence type and the
allow-invalid-attributes flag. -/
def attrdict_getstate (s : AttrDictState) :
    List (PyKey × PyVal) × PyConfig × Bool :=
  (s.entries, s.sequence_type, s.allow_invalid)

/-- Embedding of `AttrDict.__setstate__` on a freshly created (empty)
instance: `self.update(mapping)` followed by `_setattr` of the two
configuration fields, bypassing the eligibility checks. -/
def attrdict_setstate (s : AttrDictState)
    (st : List (PyKey × PyVal) × PyConfig × Bool) : AttrDictState :=
  { entries := updateAll s.entries st.1,
    sequence_type := st.2.1,
    allow_invalid := st.2.2 }

/-- The empty `AttrDict` instance deserialization starts from. -/
def attrdict_fresh : AttrDictState :=
  { entries := [], sequence_type := some SeqKind.tuple, allow_invalid := false }

/-- Serializable state of an `AttrMap`: the `_mapping`,
`_sequence_type` and `_allow_invalid_attributes` object attributes. -/
structure AttrMapState where
  entries : List (PyKey × PyVal)
  sequence_type : PyConfig
  allow_invalid : Bool

/-- Embedding of `AttrMap.__getstate__`: the three-tuple of the mapping,
the sequence type and the allow-invalid-attributes flag. -/
def attrmap_getstate (s : AttrMapState) :
    List (PyKey × PyVal) × PyConfig × Bool :=
  (s.entries, s.sequence_type, s.allow_invalid)

/-- Embedding of `AttrMap.__setstate__`: `_setattr` of `_mapping`,
`_sequence_type` and `_allow_invalid_attributes` from exactly the
tuple, bypassing the eligibility checks. -/
def attrmap_setstate (_s : AttrMapState)
    (st : List (PyKey × PyVal) × PyConfig × Bool) : AttrMapState :=
  { entries := st.1, sequence_type := st.2.1, allow_invalid := st.2.2 }

/-- The blank `AttrMap` instance deserialization starts from. -/
def attrmap_fresh : AttrMapState :=
  { entries := [], sequence_type := some SeqKind.tuple, allow_invalid := false }

/-- Modelled from the spec: the state of the defaulting variant
(`AttrDefault`, from the module `attrdictionary/default.py`, which
`attrdictionary/__init__.py` imports but which is absent from the
source tree): an internal mapping field, the sequence-type
configuration, the allow-invalid-attributes flag, plus a reference to
the user-supplied factory (represented opaquely by its identity, since
serialization never invokes it) and the pass-key flag. -/
structure AttrDefaultState where
  entries : List (PyKey × PyVal)
  sequence_type : PyConfig
  allow_invalid : Bool
  default_factory : Option Nat
  pass_key : Bool

/-- Modelled from the spec: `__getstate__` of the defaulting variant.
Per the serialization contract of the spec, which covers all variants,
serializing produces the tuple of (a) a snapshot of the raw entries,
(b) the sequence-type configuration, and (c) the
allow-invalid-attributes flag. -/
def attrdefault_getstate (s : AttrDefaultState) :
    List (PyKey × PyVal) × PyConfig × Bool :=
  (s.entries, s.sequence_type, s.allow_invalid)

/-- Modelled from the spec: `__setstate__` of the defaulting variant.
Per the serialization contract, deserializing restores the internal
state from exactly that tuple through the raw object-attribute escape
hatch, without re-running the attribute-eligibility checks. -/
def attrdefault_setstate (s : AttrDefaultState)
    (st : List (PyKey × PyVal) × PyConfig × Bool) : AttrDefaultState :=
  { s with entries := st.1, sequence_type := st.2.1, allow_invalid := st.2.2 }

/-- The blank `AttrDefault` instance (no factory) deserialization
starts from. -/
def attrdefault_fresh : AttrDefaultState :=
  { entries := [], sequence_type := some SeqKind.tuple, allow_invalid := false,
    default_factory := Option.none, pass_key := false }

/-- A heap value: either an immutable primitive or a reference to a
shared mutable dictionary object on the heap.  Used to settle the
aliasing behaviour of boxing. -/
inductive HVal where
  | prim : PyVal → HVal
  | ref : Nat → HVal

/-- A heap dictionary object: an association list of heap values. -/
abbrev DictObj := List (PyKey × HVal)

/-- A heap of dictionary objects, addressed by allocation order. -/
structure Heap where
  objs : Nat → DictObj
  size : Nat

/-- Read the dictionary object stored at an address. -/
def heapGet (h : Heap) (a : Nat) : DictObj := h.objs a

/-- Overwrite the dictionary object stored at an address. -/
def heapSet (h : Heap) (a : Nat) (o : DictObj) : Heap :=
  { h with objs := fun b => if b = a then o else h.objs b }

/-- Allocate a new dictionary object, returning the grown heap and the
fresh address. -/
def halloc (h : Heap) (o : DictObj) : Heap × Nat :=
  ({ objs := fun b => if b = h.size then o else h.objs b, size := h.size + 1 }, h.size)

/-- Lookup in a heap dictionary object. -/
def hLookup : DictObj → PyKey → Option HVal
  | [], _ => Option.none
  | (k', v) :: rest, k => if k' = k then some v else hLookup rest k

/-- Keyed store into a heap dictionary object. -/
def hSetEntry : DictObj → PyKey → HVal → DictObj
  | [], k, v => [(k, v)]
  | (k', v') :: rest, k, v =>
    if k' = k then (k, v) :: rest else (k', v') :: hSetEntry rest k v

/-- Embedding of `dict.__setitem__` on the heap: mutate the dictionary
object at the given address in place. -/
def dict_setitem (h : Heap) (a : Nat) (k : PyKey) (v : HVal) : Heap :=
  heapSet h a (hSetEntry (heapGet h a) k v)

/-- Boxing of a mapping-valued entry of an `AttrDict` at address `d`:
`__getattr__` reaches `_build`, which calls
`AttrDict._constructor(obj, ...)`, i.e. `cls(obj)`; `dict.__init__`
copies the top-level entries of `obj` into a newly allocated dict
object (nested references are shared).  Returns the grown heap and the
address of the boxed child. -/
def attrdict_box_child (h : Heap) (d : Nat) (k : PyKey) : Option (Heap × Nat) :=
  match hLookup (heapGet h d) k with
  | some (HVal.ref a) => some (halloc h (heapGet h a))
  | _ => Option.none

/-- Boxing of a mapping-valued entry of an `AttrMap` whose `_mapping`
lives at address `m`: `_build` calls
`AttrMap._constructor(obj, ...)`, i.e. `cls(obj, ...)`, and
`AttrMap.__init__` stores a `Mapping` argument as its `_mapping`
without copying, so the child shares the very same dict object. -/
def attrmap_box_child (h : Heap) (m : Nat) (k : PyKey) : Option (Heap × Nat) :=
  match hLookup (heapGet h m) k with
  | some (HVal.ref a) => some (h, a)
  | _ => Option.none

/-- The parent's view `d[k][k2]` through plain keyed access: the stored
reference for `k` is followed to the shared heap object, then `k2` is
looked up there. -/
def parent_view (h : Heap) (d : Nat) (k k2 : PyKey) : Option HVal :=
  match hLookup (heapGet h d) k with
  | some (HVal.ref a) => hLookup (heapGet h a) k2
  | _ => Option.none

theorem lookup_setEntry (l : List (PyKey × PyVal)) (k : PyKey) (v : PyVal)
    (q : PyKey) :
    lookupKey (setEntry l k v) q = if k = q then some v else lookupKey l q := by
  induction l with
  | nil => simp [setEntry, lookupKey]
  | cons p rest ih =>
    obtain ⟨k0, v0⟩ := p
    by_cases hk : k0 = k
    · subst hk
      simp only [setEntry, if_pos rfl, lookupKey]
      split <;> simp_all [lookupKey]
    · simp only [setEntry, if_neg hk, lookupKey]
      by_cases hq : k0 = q
      · subst hq
        have : ¬ (k = k0) := fun h => hk h.symm
        simp [this]
      · simp [hq, ih]

theorem lookup_removeKey (l : List (PyKey × PyVal)) (k : PyKey) (q : PyKey) :
    lookupKey (removeKey l k) q = if k = q then Option.none else lookupKey l q := by
  induction l with
  | nil => simp [removeKey, lookupKey]
  | cons p rest ih =>
    obtain ⟨k0, v0⟩ := p
    by_cases hk : k0 = k
    · subst hk
      have hred : removeKey ((k0, v0) :: rest) k0 = removeKey rest k0 := by
        simp [removeKey]
      rw [hred]
      by_cases hq : k0 = q
      · subst hq
        simp [ih, lookupKey]
      · rw [ih]
        simp [hq, lookupKey]
    · simp only [removeKey, if_neg hk, lookupKey]
      by_cases hq : k0 = q
      · subst hq
        have h1 : ¬ (k = k0) := fun h => hk h.symm
        simp [h1]
      · simp [hq, ih]

theorem lookup_none_of_not_mem (l : List (PyKey × PyVal)) (k : PyKey)
    (h : k ∉ l.map Prod.fst) : lookupKey l k = Option.none := by
  induction l with
  | nil => rfl
  | cons p rest ih =>
    obtain ⟨k0, v0⟩ := p
    simp only [List.map, List.mem_cons] at h
    push_neg at h
    have h1 : ¬ k0 = k := fun hh => h.1 hh.symm
    simp [lookupKey, h1, ih h.2]

theorem lookup_updateAll (m : List (PyKey × PyVal)) :
    ∀ base, (m.map Prod.fst).Nodup → ∀ q,
      lookupKey (updateAll base m) q =
        match lookupKey m q with
        | some v => some v
        | Option.none => lookupKey base q := by
  induction m with
  | nil => intro base _ q; rfl
  | cons p rest ih =>
    intro base h q
    obtain ⟨k0, v0⟩ := p
    simp only [List.map, List.nodup_cons] at h
    have step := ih (setEntry base k0 v0) h.2 q
    simp only [updateAll]
    rw [step]
    by_cases hq : k0 = q
    · subst hq
      rw [lookup_none_of_not_mem rest k0 h.1]
      simp [lookupKey, lookup_setEntry]
    · simp only [lookupKey, if_neg hq]
      cases hrest : lookupKey rest q with
      | none => simp [lookup_setEntry, hq]
      | some v => simp

theorem merge_lookup (l : List (PyKey × PyVal)) :
    ∀ r k, lookupKey (merge l r) k = mergeLookupSpec (lookupKey l k) (lookupKey r k) := by
  induction l with
  | nil =>
    intro r k
    simp [merge, lookupKey, mergeLookupSpec]
  | cons p rest ih =>
    intro r k
    obtain ⟨k0, v0⟩ := p
    by_cases hk : k0 = k
    · subst hk
      cases v0 with
      | map lm =>
        simp only [merge, lookupKey, if_pos rfl]
        cases hr : lookupKey r k0 with
        | none => simp [mergeLookupSpec, hr]
        | some w => cases w <;> simp [mergeLookupSpec, hr]
      | str s =>
        simp only [merge, lookupKey, if_pos rfl]
        cases hr : lookupKey r k0 with
        | none => simp [mergeLookupSpec, hr]
        | some w => cases w <;> simp [mergeLookupSpec, hr]
      | bytes b =>
        simp only [merge, lookupKey, if_pos rfl]
        cases hr : lookupKey r k0 with
        | none => simp [mergeLookupSpec, hr]
        | some w => cases w <;> simp [mergeLookupSpec, hr]
      | int n =>
        simp only [merge, lookupKey, if_pos rfl]
        cases hr : lookupKey r k0 with
        | none => simp [mergeLookupSpec, hr]
        | some w => cases w <;> simp [mergeLookupSpec, hr]
      | bool b =>
        simp only [merge, lookupKey, if_pos rfl]
        cases hr : lookupKey r k0 with
        | none => simp [mergeLookupSpec, hr]
        | some w => cases w <;> simp [mergeLookupSpec, hr]
      | none =>
        simp only [merge, lookupKey, if_pos rfl]
        cases hr : lookupKey r k0 with
        | none => simp [mergeLookupSpec, hr]
        | some w => cases w <;> simp [mergeLookupSpec, hr]
      | seq sk elems =>
        simp only [merge, lookupKey, if_pos rfl]
        cases hr : lookupKey r k0 with
        | none => simp [mergeLookupSpec, hr]
        | some w => cases w <;> simp [mergeLookupSpec, hr]
    · have step : lookupKey (merge ((k0, v0) :: rest) r) k =
          lookupKey (merge rest (removeKey r k0)) k := by
        cases v0 <;> simp [merge, lookupKey, hk]
      rw [step, ih (removeKey r k0) k, lookup_removeKey]
      simp [lookupKey, hk]

theorem char_le_iff_toNat (a b : Char) : a ≤ b ↔ a.toNat ≤ b.toNat := by
  rw [Char.le_def, UInt32.le_def, BitVec.le_def]
  exact Iff.rfl

theorem isAsciiLetter_iff (c : Char) :
    isAsciiLetter c = true ↔
      (65 ≤ c.toNat ∧ c.toNat ≤ 90) ∨ (97 ≤ c.toNat ∧ c.toNat ≤ 122) := by
  have hA : ('A').toNat = 65 := rfl
  have hZ : ('Z').toNat = 90 := rfl
  have ha : ('a').toNat = 97 := rfl
  have hz : ('z').toNat = 122 := rfl
  simp only [isAsciiLetter, Bool.or_eq_true, Bool.and_eq_true, decide_eq_true_eq,
    char_le_iff_toNat, hA, hZ, ha, hz]

theorem isWordChar_iff (c : Char) :
    isWordChar c = true ↔
      (65 ≤ c.toNat ∧ c.toNat ≤ 90) ∨ (97 ≤ c.toNat ∧ c.toNat ≤ 122) ∨
      (48 ≤ c.toNat ∧ c.toNat ≤ 57) ∨ c.toNat = 95 := by
  have h0 : ('0').toNat = 48 := rfl
  have h9 : ('9').toNat = 57 := rfl
  have hu : c = '_' ↔ c.toNat = 95 := by
    constructor
    · intro h; subst h; rfl
    · intro h
      have : c.val = ('_').val := by
        have hv : c.val.toBitVec.toNat = 95 := h
        have : c.val.toBitVec = ('_').val.toBitVec := by
          apply BitVec.eq_of_toNat_eq
          simpa using hv
        exact UInt32.eq_of_toBitVec_eq this
      exact Char.ext this
  simp only [isWordChar, Bool.or_eq_true, Bool.and_eq_true, decide_eq_true_eq,
    isAsciiLetter_iff, char_le_iff_toNat, h0, h9, hu]
  tauto

theorem isAsciiLetter_eq_false_of_ge (c : Char) (h : 128 ≤ c.toNat) :
    isAsciiLetter c = false := by
  rw [Bool.eq_false_iff]
  intro hc
  rcases (isAsciiLetter_iff c).1 hc with ⟨_, h2⟩ | ⟨_, h2⟩ <;> omega

theorem isWordChar_eq_false_of_ge (c : Char) (h : 128 ≤ c.toNat) :
    isWordChar c = false := by
  rw [Bool.eq_false_iff]
  intro hc
  rcases (isWordChar_iff c).1 hc with ⟨_, h2⟩ | ⟨_, h2⟩ | ⟨_, h2⟩ | h2 <;> omega

theorem newline_toNat : ('\n').toNat = 10 := rfl

theorem pyTailMatch_eq_false_of_mem (l : List Char) (c : Char) (hc : c ∈ l)
    (h : 128 ≤ c.toNat) : pyTailMatch l = false := by
  induction l with
  | nil => cases hc
  | cons c0 rest ih =>
    rcases List.mem_cons.mp hc with hcc | hmem
    · subst hcc
      have hw : isWordChar c = false := isWordChar_eq_false_of_ge c h
      have hn : ¬ (c = '\n') := by
        intro he
        rw [he, newline_toNat] at h
        omega
      simp [pyTailMatch, hw, hn]
    · have hne : rest.isEmpty = false := by
        cases rest with
        | nil => cases hmem
        | cons a b => rfl
      simp [pyTailMatch, ih hmem, hne]

/-- C1: the claim as written fails on the code.  Counterexample: the key
consisting of a letter followed by a newline is accepted by
`Attr._valid_name` (Python `$` matches just before a trailing newline),
yet it does not match the anchored pattern `^[A-Za-z][A-Za-z0-9_]*$`
read as a plain regular expression, under which the claim states it
should be ineligible. -/
theorem valid_name_strict_pattern_cex :
    valid_name attrMembers (PyKey.str ("a\n")) = true
    ∧ specPatternMatch ("a\n").toList = false := by
  constructor
  · decide
  · decide

/-- C1 (amended): a key is accepted by `Attr._valid_name` iff it is a
string, Python `re.match` of `^[A-Za-z][A-Za-z0-9_]*$` succeeds on it
(which also tolerates one trailing newline), and no member of that name
is already defined on the class; in particular a key whose first
character is a digit or an underscore, or which contains any non-ASCII
character (hence any non-ASCII letter), is never attribute-eligible,
and a non-string key never is. -/
theorem valid_name_spec (members : List String) :
    (∀ k : PyKey, valid_name members k = true ↔
       ∃ s, k = PyKey.str s ∧ pyPatternMatch s.toList = true
         ∧ members.contains s = false)
    ∧ (∀ (s : String) (c : Char) (rest : List Char), s.toList = c :: rest →
        ((48 ≤ c.toNat ∧ c.toNat ≤ 57) ∨ c.toNat = 95) →
        valid_name members (PyKey.str s) = false)
    ∧ (∀ (s : String) (c : Char), c ∈ s.toList → 128 ≤ c.toNat →
        valid_name members (PyKey.str s) = false)
    ∧ (∀ n : Int, valid_name members (PyKey.int n) = false) := by
  refine ⟨?_, ?_, ?_, ?_⟩
  · intro k
    cases k with
    | str s =>
      simp only [valid_name, Bool.and_eq_true, Bool.not_eq_true']
      constructor
      · intro h
        exact ⟨s, rfl, h.1, h.2⟩
      · rintro ⟨s', hs, h1, h2⟩
        cases hs
        exact ⟨h1, h2⟩
    | int n =>
      simp only [valid_name, Bool.false_eq_true, false_iff]
      rintro ⟨s, hs, -, -⟩
      cases hs
  · intro s c rest hlist hc
    have hdata : s.data = c :: rest := hlist
    have hletter : isAsciiLetter c = false := by
      rw [Bool.eq_false_iff]
      intro habs
      rcases (isAsciiLetter_iff c).1 habs with ⟨h1, h2⟩ | ⟨h1, h2⟩ <;> omega
    simp [valid_name, pyPatternMatch, hdata, hletter]
  · intro s c hmem hge
    cases hlist : s.toList with
    | nil =>
      have hdata : s.data = [] := hlist
      simp [valid_name, pyPatternMatch, hdata]
    | cons c0 rest =>
      have hdata : s.data = c0 :: rest := hlist
      rw [hlist] at hmem
      rcases List.mem_cons.mp hmem with hcc | hmem2
      · subst hcc
        simp [valid_name, pyPatternMatch, hdata, isAsciiLetter_eq_false_of_ge c hge]
      · simp [valid_name, pyPatternMatch, hdata,
          pyTailMatch_eq_false_of_mem rest c hmem2 hge]
  · intro n
    rfl

/-- C1 witness: the ordinary identifier foo is attribute-eligible on
`Attr`. -/
theorem valid_name_spec_witness :
    valid_name attrMembers (PyKey.str ("foo")) = true :=
  ((valid_name_spec attrMembers).1 (PyKey.str ("foo"))).mpr
    ⟨"foo", rfl, by decide, by decide⟩

/-- C2: on a `MutableAttr` instance, writing or deleting an
attribute-eligible name is exactly the keyed write or delete (after a
write the key maps to the value, after a successful delete it is
absent); for an ineligible name with the allow-invalid-attributes flag
false the write raises the attribute-creation `TypeError` naming class,
key and value and the delete raises the attribute-deletion `TypeError`
naming the class, the mapping being untouched; with the flag true both
are ordinary object-level attribute operations that leave the mapping
contents unchanged. -/
theorem mutable_attr_write_delete_spec (members : List String) (cls : String)
    (inst : MutInst) (key : String) (v : PyVal) :
    (valid_name members (PyKey.str key) = true →
      mutable_setattr members cls inst key v
          = Except.ok (mut_setitem inst (PyKey.str key) v)
        ∧ lookupKey (mut_setitem inst (PyKey.str key) v).entries (PyKey.str key)
          = some v
        ∧ mutable_delattr members cls inst key = mut_delitem inst (PyKey.str key)
        ∧ (∀ inst2, mut_delitem inst (PyKey.str key) = Except.ok inst2 →
            lookupKey inst2.entries (PyKey.str key) = Option.none))
    ∧ (valid_name members (PyKey.str key) = false → allow_invalid inst = false →
      mutable_setattr members cls inst key v
          = Except.error (PyError.typeErrorCreate cls key v)
        ∧ mutable_delattr members cls inst key
          = Except.error (PyError.typeErrorDelete cls))
    ∧ (valid_name members (PyKey.str key) = false → allow_invalid inst = true →
      mutable_setattr members cls inst key v = Except.ok (raw_setattr inst key v)
        ∧ (raw_setattr inst key v).entries = inst.entries
        ∧ mutable_delattr members cls inst key = raw_delattr cls inst key
        ∧ (∀ inst2, raw_delattr cls inst key = Except.ok inst2 →
            inst2.entries = inst.entries)) := by
  refine ⟨?_, ?_, ?_⟩
  · intro hvalid
    refine ⟨?_, ?_, ?_, ?_⟩
    · simp [mutable_setattr, hvalid]
    · simp [mut_setitem, lookup_setEntry]
    · simp [mutable_delattr, hvalid]
    · intro inst2 h2
      cases hl : lookupKey inst.entries (PyKey.str key) with
      | none => simp [mut_delitem, hl] at h2
      | some w =>
        simp only [mut_delitem, hl, Except.ok.injEq] at h2
        subst h2
        simp [lookup_removeKey]
  · intro hvalid hflag
    constructor
    · simp [mutable_setattr, hvalid, hflag]
    · simp [mutable_delattr, hvalid, hflag]
  · intro hvalid hflag
    refine ⟨?_, ?_, ?_, ?_⟩
    · simp [mutable_setattr, hvalid, hflag]
    · rfl
    · simp [mutable_delattr, hvalid, hflag]
    · intro inst2 h2
      cases hl : lookupStr inst.objAttrs key with
      | none => simp [raw_delattr, hl] at h2
      | some w =>
        simp only [raw_delattr, hl, Except.ok.injEq] at h2
        subst h2
        rfl

/-- C2 witness: on an empty `AttrMap`-like instance, assigning the
eligible attribute foo is the keyed write of foo. -/
theorem mutable_attr_write_delete_spec_witness :
    mutable_setattr mutableAttrMembers ("AttrMap") ⟨[], []⟩ ("foo") (PyVal.str ("bar"))
      = Except.ok (mut_setitem ⟨[], []⟩ (PyKey.str ("foo")) (PyVal.str ("bar"))) :=
  ((mutable_attr_write_delete_spec mutableAttrMembers ("AttrMap") ⟨[], []⟩ ("foo")
      (PyVal.str ("bar"))).1 (by decide)).1

/-- C3: `__getattr__` raises `AttributeError` naming the class and key
iff the key is absent from the mapping or not attribute-eligible;
`__call__` raises `AttributeError` naming the class and key iff the key
is absent; in every non-raising case both return the boxed value
`_build(self[key])`. -/
theorem attr_read_call_spec (members : List String) (cls : String)
    (inst : AttrInst) (key : String) :
    (attr_getattr members cls inst key
        = Except.error (PyError.attributeError cls (PyKey.str key))
      ↔ lookupKey inst.entries (PyKey.str key) = Option.none
        ∨ valid_name members (PyKey.str key) = false)
    ∧ (∀ k : PyKey, attr_call cls inst k
        = Except.error (PyError.attributeError cls k)
      ↔ lookupKey inst.entries k = Option.none)
    ∧ (∀ v, lookupKey inst.entries (PyKey.str key) = some v →
        valid_name members (PyKey.str key) = true →
        attr_getattr members cls inst key
          = Except.ok (build inst.sequence_type v))
    ∧ (∀ (k : PyKey) (v : PyVal), lookupKey inst.entries k = some v →
        attr_call cls inst k = Except.ok (build inst.sequence_type v)) := by
  refine ⟨?_, ?_, ?_, ?_⟩
  · cases hl : lookupKey inst.entries (PyKey.str key) with
    | none => simp [attr_getattr, hl]
    | some v =>
      cases hv : valid_name members (PyKey.str key) with
      | true => simp [attr_getattr, hl, hv]
      | false => simp [attr_getattr, hl, hv]
  · intro k
    cases hl : lookupKey inst.entries k with
    | none => simp [attr_call, hl]
    | some v => simp [attr_call, hl]
  · intro v hl hv
    simp [attr_getattr, hl, hv]
  · intro k v hl
    simp [attr_call, hl]

/-- C3 witness: on an instance holding foo, both the attribute read and
the call-style access of foo return the boxed stored value. -/
theorem attr_read_call_spec_witness :
    attr_getattr attrMembers ("AttrImpl")
        ⟨[(PyKey.str ("foo"), PyVal.str ("bar"))], some SeqKind.tuple⟩ ("foo")
      = Except.ok (build (some SeqKind.tuple) (PyVal.str ("bar"))) :=
  (attr_read_call_spec attrMembers ("AttrImpl")
      ⟨[(PyKey.str ("foo"), PyVal.str ("bar"))], some SeqKind.tuple⟩ ("foo")).2.2.1
    (PyVal.str ("bar")) (by simp [lookupKey]) (by decide)

theorem buildList_eq_map (cfg : PyConfig) (l : List PyVal) :
    buildList cfg l = l.map (build cfg) := by
  induction l with
  | nil => rfl
  | cons e rest ih => simp [buildList, ih]

/-- C4: `_build` returns strings and bytes unchanged, wraps a mapping
via the standardized constructor with the same configuration, rebuilds a
non-string sequence as the configured sequence type over the elementwise
boxed elements when the sequence type is not the `None` sentinel, and
returns every other value (scalars, or sequences under the sentinel)
unchanged; and boxing never mutates the backing store: boxing a nested
mapping of an `AttrDict` or `AttrMap` leaves every previously allocated
heap object unchanged, so keyed access still sees the original stored
value. -/
theorem build_boxing_spec (cfg : PyConfig) :
    (∀ s, build cfg (PyVal.str s) = Boxed.raw (PyVal.str s))
    ∧ (∀ b, build cfg (PyVal.bytes b) = Boxed.raw (PyVal.bytes b))
    ∧ (∀ entries, build cfg (PyVal.map entries) = Boxed.container entries cfg)
    ∧ (∀ st sk elems, cfg = some st →
        build cfg (PyVal.seq sk elems)
          = Boxed.builtSeq st (elems.map (build cfg)))
    ∧ (∀ sk elems, cfg = Option.none →
        build cfg (PyVal.seq sk elems) = Boxed.raw (PyVal.seq sk elems))
    ∧ (∀ n, build cfg (PyVal.int n) = Boxed.raw (PyVal.int n))
    ∧ (∀ b, build cfg (PyVal.bool b) = Boxed.raw (PyVal.bool b))
    ∧ build cfg PyVal.none = Boxed.raw PyVal.none
    ∧ (∀ (h : Heap) (d : Nat) (k : PyKey) (h2 : Heap) (c : Nat),
        attrdict_box_child h d k = some (h2, c) →
        ∀ b, b < h.size → heapGet h2 b = heapGet h b)
    ∧ (∀ (h : Heap) (m : Nat) (k : PyKey) (h2 : Heap) (c : Nat),
        attrmap_box_child h m k = some (h2, c) → h2 = h) := by
  refine ⟨fun s => rfl, fun b => rfl, fun entries => rfl, ?_, ?_,
    fun n => rfl, fun b => rfl, rfl, ?_, ?_⟩
  · intro st sk elems hcfg
    subst hcfg
    simp [build, buildList_eq_map]
  · intro sk elems hcfg
    subst hcfg
    simp [build]
  · intro h d k h2 c hbox b hb
    cases hl : hLookup (heapGet h d) k with
    | none => simp [attrdict_box_child, hl] at hbox
    | some w =>
      cases w with
      | prim p => simp [attrdict_box_child, hl] at hbox
      | ref a =>
        simp only [attrdict_box_child, hl, halloc, Option.some.injEq,
          Prod.mk.injEq] at hbox
        obtain ⟨hh2, -⟩ := hbox
        subst hh2
        have hbne : ¬ (b = h.size) := Nat.ne_of_lt hb
        simp [heapGet, hbne]
  · intro h m k h2 c hbox
    cases hl : hLookup (heapGet h m) k with
    | none => simp [attrmap_box_child, hl] at hbox
    | some w =>
      cases w with
      | prim p => simp [attrmap_box_child, hl] at hbox
      | ref a =>
        simp only [attrmap_box_child, hl, Option.some.injEq, Prod.mk.injEq] at hbox
        exact hbox.1.symm

/-- C4 witness: under the tuple sequence type, boxing a one-element
list of a scalar rebuilds it as a tuple of the boxed element. -/
theorem build_boxing_spec_witness :
    build (some SeqKind.tuple) (PyVal.seq SeqKind.list [PyVal.int 1])
      = Boxed.builtSeq SeqKind.tuple [build (some SeqKind.tuple) (PyVal.int 1)] :=
  (build_boxing_spec (some SeqKind.tuple)).2.2.2.1 SeqKind.tuple SeqKind.list
    [PyVal.int 1] rfl

/-- C5: addition of a mapping operand on either side is the standardized
constructor over the merge, keeping the configuration of the container
that performed the construction; a non-mapping operand is declined
(`NotImplemented`); and addition is not commutative in content whenever
the two operands disagree on a shared scalar key. -/
theorem attr_addition_spec (inst : AttrInst) :
    (∀ o, attr_add inst (PyVal.map o)
        = some ⟨merge inst.entries o, inst.sequence_type⟩)
    ∧ (∀ o, attr_radd inst (PyVal.map o)
        = some ⟨merge o inst.entries, inst.sequence_type⟩)
    ∧ (∀ v, PyVal.isMap v = false →
        attr_add inst v = Option.none ∧ attr_radd inst v = Option.none)
    ∧ (∀ (b : AttrInst) (k : PyKey) (u w : PyVal),
        lookupKey inst.entries k = some u → lookupKey b.entries k = some w →
        PyVal.isMap u = false → PyVal.isMap w = false → u ≠ w →
        ¬ MappingEq (merge inst.entries b.entries) (merge b.entries inst.entries)) := by
  refine ⟨fun o => rfl, fun o => rfl, ?_, ?_⟩
  · intro v hv
    cases v <;> simp_all [attr_add, attr_radd, PyVal.isMap]
  · intro b k u w hu hw hmu hmw hne heq
    have h1 : lookupKey (merge inst.entries b.entries) k
        = mergeLookupSpec (some u) (some w) := by
      rw [merge_lookup inst.entries b.entries k, hu, hw]
    have h2 : lookupKey (merge b.entries inst.entries) k
        = mergeLookupSpec (some w) (some u) := by
      rw [merge_lookup b.entries inst.entries k, hw, hu]
    have hs1 : mergeLookupSpec (some u) (some w) = some w := by
      cases u <;> cases w <;> simp_all [mergeLookupSpec, PyVal.isMap]
    have hs2 : mergeLookupSpec (some w) (some u) = some u := by
      cases u <;> cases w <;> simp_all [mergeLookupSpec, PyVal.isMap]
    have := heq k
    rw [h1, h2, hs1, hs2] at this
    exact hne (Option.some.inj this).symm

/-- C5 witness: adding a one-entry mapping to a one-entry container
merges right-biased under the left configuration. -/
theorem attr_addition_spec_witness :
    attr_add ⟨[(PyKey.str ("a"), PyVal.int 1)], Option.none⟩
        (PyVal.map [(PyKey.str ("b"), PyVal.int 2)])
      = some ⟨merge [(PyKey.str ("a"), PyVal.int 1)]
          [(PyKey.str ("b"), PyVal.int 2)], Option.none⟩ :=
  (attr_addition_spec ⟨[(PyKey.str ("a"), PyVal.int 1)], Option.none⟩).1
    [(PyKey.str ("b"), PyVal.int 2)]

/-- C6: the merge of two mappings binds exactly the union of the two
key sets, with a one-sided key keeping its value, a key bound to
mappings on both sides merged recursively, and any other shared key
taking the right value; the function is pure, so neither argument is
mutated and the result is a fresh plain mapping. -/
theorem merge_contract_spec (l r : List (PyKey × PyVal)) (k : PyKey) :
    lookupKey (merge l r) k = mergeLookupSpec (lookupKey l k) (lookupKey r k)
    ∧ (lookupKey (merge l r) k = Option.none
        ↔ lookupKey l k = Option.none ∧ lookupKey r k = Option.none) := by
  refine ⟨merge_lookup l r k, ?_⟩
  rw [merge_lookup l r k]
  cases hl : lookupKey l k with
  | none =>
    cases hr : lookupKey r k with
    | none => simp [mergeLookupSpec]
    | some w => simp [mergeLookupSpec]
  | some v =>
    cases hr : lookupKey r k with
    | none => cases v <;> simp [mergeLookupSpec]
    | some w => cases v <;> cases w <;> simp [mergeLookupSpec]

/-- C6 witness: merging two singleton mappings sharing a scalar key is
right-biased. -/
theorem merge_contract_spec_witness :
    lookupKey (merge [(PyKey.str ("a"), PyVal.int 1)]
        [(PyKey.str ("a"), PyVal.int 2)]) (PyKey.str ("a"))
      = some (PyVal.int 2) := by
  have h := (merge_contract_spec [(PyKey.str ("a"), PyVal.int 1)]
      [(PyKey.str ("a"), PyVal.int 2)] (PyKey.str ("a"))).1
  simpa [lookupKey, mergeLookupSpec] using h

/-- C7: serialization of every concrete variant (`AttrDict`,
`AttrMap`, and the defaulting `AttrDefault`) produces exactly the
three-tuple of entry snapshot, sequence-type configuration and
allow-invalid-attributes flag, and deserializing that tuple into a
fresh instance restores a container equal to the original under mapping
equality with the same configuration and flag. -/
theorem serialization_roundtrip_spec (d : AttrDictState) (m : AttrMapState)
    (a : AttrDefaultState) (hd : (d.entries.map Prod.fst).Nodup) :
    attrdict_getstate d = (d.entries, d.sequence_type, d.allow_invalid)
    ∧ MappingEq (attrdict_setstate attrdict_fresh (attrdict_getstate d)).entries
        d.entries
    ∧ (attrdict_setstate attrdict_fresh (attrdict_getstate d)).sequence_type
        = d.sequence_type
    ∧ (attrdict_setstate attrdict_fresh (attrdict_getstate d)).allow_invalid
        = d.allow_invalid
    ∧ attrmap_getstate m = (m.entries, m.sequence_type, m.allow_invalid)
    ∧ attrmap_setstate attrmap_fresh (attrmap_getstate m) = m
    ∧ attrdefault_getstate a = (a.entries, a.sequence_type, a.allow_invalid)
    ∧ (attrdefault_setstate attrdefault_fresh (attrdefault_getstate a)).entries
        = a.entries
    ∧ (attrdefault_setstate attrdefault_fresh (attrdefault_getstate a)).sequence_type
        = a.sequence_type
    ∧ (attrdefault_setstate attrdefault_fresh (attrdefault_getstate a)).allow_invalid
        = a.allow_invalid := by
  refine ⟨rfl, ?_, rfl, rfl, rfl, ?_, rfl, rfl, rfl, rfl⟩
  · intro q
    have h := lookup_updateAll d.entries [] hd q
    simp only [attrdict_setstate, attrdict_getstate, attrdict_fresh]
    rw [h]
    cases hl : lookupKey d.entries q with
    | none => rfl
    | some v => rfl
  · cases m
    rfl

/-- C7 witness: a concrete one-entry `AttrDict` state with list
sequence type and a permissive flag round-trips through
serialization. -/
theorem serialization_roundtrip_spec_witness :
    MappingEq
      (attrdict_setstate attrdict_fresh
        (attrdict_getstate
          ⟨[(PyKey.str ("foo"), PyVal.str ("bar"))], some SeqKind.list, true⟩)).entries
      [(PyKey.str ("foo"), PyVal.str ("bar"))] :=
  (serialization_roundtrip_spec
    ⟨[(PyKey.str ("foo"), PyVal.str ("bar"))], some SeqKind.list, true⟩
    ⟨[], some SeqKind.tuple, false⟩
    ⟨[(PyKey.int 1, PyVal.none)], Option.none, true, some 0, true⟩
    (by simp)).2.1

theorem hLookup_hSetEntry (o : DictObj) (k : PyKey) (v : HVal) (q : PyKey) :
    hLookup (hSetEntry o k v) q = if k = q then some v else hLookup o q := by
  induction o with
  | nil => simp [hSetEntry, hLookup]
  | cons p rest ih =>
    obtain ⟨k0, v0⟩ := p
    by_cases hk : k0 = k
    · subst hk
      simp only [hSetEntry, if_pos rfl, hLookup]
      split <;> simp_all [hLookup]
    · simp only [hSetEntry, if_neg hk, hLookup]
      by_cases hq : k0 = q
      · subst hq
        have h1 : ¬ (k = k0) := fun h => hk h.symm
        simp [h1]
      · simp [hq, ih]

/-- The two-object heap of the aliasing scenario: address 0 holds the
nested dict with entry k2 = bar, address 1 holds the parent dict whose
entry k references it. -/
def c8Heap : Heap :=
  { objs := fun b =>
      if b = 0 then [(PyKey.str ("k2"), HVal.prim (PyVal.str ("bar")))]
      else if b = 1 then [(PyKey.str ("k"), HVal.ref 0)]
      else [],
    size := 2 }

/-- C8: the claim as written fails on the code.  Counterexample: the
boxed child of the dict-like variant is built by `cls(obj)`, and
`dict.__init__` copies the top-level entries into a fresh dict object,
so writing qux at k2 through the boxed child leaves the parent's view
of the nested entry at its original value bar — the mutation is not
visible through the parent. -/
theorem attrdict_child_mutation_cex :
    (attrdict_box_child c8Heap 1 (PyKey.str ("k"))).map
        (fun hc =>
          parent_view
            (dict_setitem hc.1 hc.2 (PyKey.str ("k2"))
              (HVal.prim (PyVal.str ("qux"))))
            1 (PyKey.str ("k")) (PyKey.str ("k2")))
      = some (some (HVal.prim (PyVal.str ("bar"))))
    ∧ PyVal.str ("bar") ≠ PyVal.str ("qux") := by
  constructor
  · rfl
  · intro hcontr
    have hstr : "bar" = "qux" := PyVal.str.inj hcontr
    exact absurd hstr (by decide)

/-- C8 (amended): for the dict-like variant boxing a nested mapping
copies its top-level entries, so a write through the boxed child is not
visible through the parent, whose view is unchanged; it is the
mapping-like variant (`AttrMap`) whose boxed child shares the backing
dict object, making every write through the child visible through the
parent. -/
theorem boxing_aliasing_spec (h : Heap) (d a : Nat) (k k2 : PyKey) (v : HVal)
    (hl : hLookup (heapGet h d) k = some (HVal.ref a))
    (hd : d < h.size) (ha : a < h.size) (had : a ≠ d) :
    (∀ h2 c, attrdict_box_child h d k = some (h2, c) →
      parent_view (dict_setitem h2 c k2 v) d k k2 = parent_view h d k k2)
    ∧ (∀ h2 c, attrmap_box_child h d k = some (h2, c) →
      parent_view (dict_setitem h2 c k2 v) d k k2 = some v) := by
  constructor
  · intro h2 c hbox
    simp only [attrdict_box_child, hl, halloc, Option.some.injEq,
      Prod.mk.injEq] at hbox
    obtain ⟨hh2, hc⟩ := hbox
    subst hh2
    subst hc
    have hdne : ¬ (d = h.size) := Nat.ne_of_lt hd
    have hane : ¬ (a = h.size) := Nat.ne_of_lt ha
    have hread : ∀ b, ¬ (b = h.size) →
        heapGet (dict_setitem
          ({ objs := fun b2 => if b2 = h.size then heapGet h a else h.objs b2,
             size := h.size + 1 } : Heap) h.size k2 v) b = heapGet h b := by
      intro b hb
      simp [dict_setitem, heapSet, heapGet, hb]
    simp only [parent_view, hread d hdne, hl, hread a hane]
  · intro h2 c hbox
    simp only [attrmap_box_child, hl, Option.some.injEq, Prod.mk.injEq] at hbox
    obtain ⟨hh2, hc⟩ := hbox
    subst hh2
    subst hc
    have hdna : ¬ (d = a) := fun hh => had hh.symm
    have hl2 : hLookup (h.objs d) k = some (HVal.ref a) := hl
    simp [parent_view, dict_setitem, heapSet, heapGet, hdna, hl2,
      hLookup_hSetEntry]

/-- C8 witness: in the concrete two-object heap, a write through the
`AttrMap`-boxed child is visible through the parent. -/
theorem boxing_aliasing_spec_witness :
    parent_view
        (dict_setitem c8Heap 0 (PyKey.str ("k2")) (HVal.prim (PyVal.str ("qux"))))
        1 (PyKey.str ("k")) (PyKey.str ("k2"))
      = some (HVal.prim (PyVal.str ("qux"))) :=
  (boxing_aliasing_spec c8Heap 1 0 (PyKey.str ("k")) (PyKey.str ("k2"))
      (HVal.prim (PyVal.str ("qux"))) rfl (by decide) (by decide) (by decide)).2
    c8Heap 0 rfl

/-- C9: the claim as written fails on the code.  Counterexample: a
read-only `Attr` container defines no `__setattr__` override, so the
attribute write succeeds as an ordinary object-level assignment (no
error is raised); only the mapping is untouched. -/
theorem ro_write_not_rejected_cex :
    ro_setattr ⟨[(PyKey.str ("foo"), PyVal.str ("bar"))], []⟩ ("baz") (PyVal.int 1)
      = Except.ok ⟨[(PyKey.str ("foo"), PyVal.str ("bar"))],
          [("baz", PyVal.int 1)]⟩ := rfl

/-- C9 (amended): on a read-only `Attr` container an attribute write is
performed as an ordinary object-level attribute assignment, never
raising and never touching the mapping contents, while the keyed write
is the operation rejected with a `TypeError`. -/
theorem ro_write_object_level_spec (inst : ROInst) (key : String) (v : PyVal)
    (cls : String) (k : PyKey) :
    ro_setattr inst key v
        = Except.ok ⟨inst.entries, setStrEntry inst.objAttrs key v⟩
    ∧ ro_setitem cls inst k v
        = Except.error (PyError.typeErrorItemAssignment cls) := by
  exact ⟨rfl, rfl⟩

/-- C10: when the `_allow_invalid_attributes` attribute has never been
set on a `MutableAttr` instance, writing or deleting an ineligible
attribute name is performed as an ordinary object-level operation — the
permissive default — and never raises the not-permitted `TypeError`. -/
theorem default_allow_invalid_spec (members : List String) (cls : String)
    (inst : MutInst) (key : String) (v : PyVal)
    (habsent : lookupStr inst.objAttrs ("_allow_invalid_attributes") = Option.none)
    (hinvalid : valid_name members (PyKey.str key) = false) :
    mutable_setattr members cls inst key v = Except.ok (raw_setattr inst key v)
    ∧ mutable_delattr members cls inst key = raw_delattr cls inst key := by
  have hflag : allow_invalid inst = true := by
    simp [allow_invalid, habsent]
  constructor
  · simp [mutable_setattr, hinvalid, hflag]
  · simp [mutable_delattr, hinvalid, hflag]

/-- C10 witness: on a bare instance with no object attributes at all,
assigning the underscore-prefixed name is an object-level assignment,
not an error. -/
theorem default_allow_invalid_spec_witness :
    mutable_setattr mutableAttrMembers ("AttrMap") ⟨[], []⟩ ("_key") (PyVal.int 1)
      = Except.ok (raw_setattr ⟨[], []⟩ ("_key") (PyVal.int 1)) :=
  (default_allow_invalid_spec mutableAttrMembers ("AttrMap") ⟨[], []⟩ ("_key")
    (PyVal.int 1) rfl (by decide)).1
